import Mathlib

/-!
Verification development for the StageTwo web-interface authentication
subsystem (`stagtwo_webgui/web_interface_server.py`).

The embedding models, faithfully to the source:
  * `NVMSecretManager` (save_secret / load_secret / clear_secret) over a
    byte-addressable non-volatile memory, modelled as a total function
    `Nat → Nat`, with I/O failure injected through a boolean flag
    (the source wraps every NVM access in try/except);
  * `DisplayAuth` (the rate-limited variant at lines 221-349 of the
    source, the one the claims cite): rotating six-digit PIN, per-client
    attempt counters, session-token set;
  * `EnhancedWebServer._check_auth`, the per-request access gate.

Randomness (urandom draws for PINs and tokens) is modelled by oracle
functions supplied as parameters, indexed by a draw counter.
-/

/-- Non-volatile memory: a total byte store.  The source indexes
`microcontroller.nvm` by absolute byte address. -/
abbrev Nvm := Nat → Nat

/-- Configuration of `NVMSecretManager.__init__(nvm_offset, secret_length)`. -/
structure NVMConfig where
  nvmOffset : Nat
  secretLength : Nat
deriving DecidableEq

/-- `self.nvm_size = secret_length + 4` (source line 101; the comment there
says "+4 for magic bytes and length" although the magic alone is 4 bytes). -/
def nvmSize (cfg : NVMConfig) : Nat := cfg.secretLength + 4

/-- The magic bytes `b'TOTP'` (source line 104). -/
def magicBytes : List Nat := [84, 79, 84, 80]

/-- The hardcoded fallback secret `"JBSWY3DPEHPK3PXP"` (source line 183),
as ASCII bytes. -/
def fallbackSecret : List Nat := "JBSWY3DPEHPK3PXP".data.map Char.toNat

/-- Write a run of bytes starting at `off`, leaving every other address
unchanged (models the slice assignment `nvm[off:off+len(data)] = data`). -/
def writeBytes (m : Nvm) (off : Nat) (data : List Nat) : Nvm :=
  fun i => if off ≤ i ∧ i < off + data.length then data.getD (i - off) 0 else m i

/-- Read `len` bytes starting at `off` (models `nvm[off:off+len]`). -/
def readBytes (m : Nvm) (off len : Nat) : List Nat :=
  (List.range len).map (fun j => m (off + j))

/-- The truncate-or-pad step of `save_secret` (source lines 129-132):
truncate to `secretLength` when longer, right-pad with `'A'` (byte 65)
when shorter. -/
def normalizeSecret (len : Nat) (secret : List Nat) : List Nat :=
  if len < secret.length then secret.take len
  else secret ++ List.replicate (len - secret.length) 65

/-- `NVMSecretManager.save_secret` (source lines 126-145).  The frame is
`magic ++ [length] ++ payload` written at the configured offset.  The
source catches every exception and returns `False`: `bytes([n])` raises
for `n > 255`, `str.encode('ascii')` raises for non-ASCII code points,
and the NVM write itself can fail (modelled by `ioOk`). -/
def saveSecret (cfg : NVMConfig) (ioOk : Bool) (m : Nvm) (secret : List Nat) :
    Nvm × Bool :=
  if (normalizeSecret cfg.secretLength secret).length ≤ 255 ∧
      (∀ b ∈ normalizeSecret cfg.secretLength secret, b < 128) ∧ ioOk = true then
    (writeBytes m cfg.nvmOffset
      (magicBytes ++ (normalizeSecret cfg.secretLength secret).length ::
        normalizeSecret cfg.secretLength secret), true)
  else (m, false)

/-- `NVMSecretManager._generate_and_save_new_secret` (source lines 176-183):
persist the freshly generated secret `g`; on save failure return the
hardcoded fallback instead. -/
def generateAndSave (cfg : NVMConfig) (ioOk : Bool) (m : Nvm) (g : List Nat) :
    Nvm × List Nat :=
  if (saveSecret cfg ioOk m g).2 = true then ((saveSecret cfg ioOk m g).1, g)
  else ((saveSecret cfg ioOk m g).1, fallbackSecret)

/-- `NVMSecretManager.load_secret` (source lines 147-174).  `g` is the
oracle for `generate_secret()`.  Magic mismatch, a zero or oversized
declared length, or a non-ASCII payload (`bytes.decode('ascii')` raises,
caught by the `except` at line 172) all fall back to regeneration. -/
def loadSecret (cfg : NVMConfig) (ioOk : Bool) (m : Nvm) (g : List Nat) :
    Nvm × List Nat :=
  if readBytes m cfg.nvmOffset 4 ≠ magicBytes then generateAndSave cfg ioOk m g
  else if m (cfg.nvmOffset + 4) = 0 ∨ cfg.secretLength < m (cfg.nvmOffset + 4) then
    generateAndSave cfg ioOk m g
  else if ∀ b ∈ readBytes m (cfg.nvmOffset + 5) (m (cfg.nvmOffset + 4)), b < 128 then
    (m, readBytes m (cfg.nvmOffset + 5) (m (cfg.nvmOffset + 4)))
  else generateAndSave cfg ioOk m g

/-- `NVMSecretManager.clear_secret` (source lines 185-195): overwrite
`nvm_size` bytes at the offset with zeros; return `False` on I/O failure. -/
def clearSecret (cfg : NVMConfig) (ioOk : Bool) (m : Nvm) : Nvm × Bool :=
  if ioOk = true then
    (writeBytes m cfg.nvmOffset (List.replicate (nvmSize cfg) 0), true)
  else (m, false)

/-- Default construction `NVMSecretManager()` : `nvm_offset=0`,
`secret_length=16`. -/
def demoCfg : NVMConfig := ⟨0, 16⟩

/-- An all-zero NVM region. -/
def demoNvm0 : Nvm := fun _ => 0

/-- ASCII bytes of `"HELLO"`. -/
def helloBytes : List Nat := [72, 69, 76, 76, 79]

/-- NVM contents after saving a 16-byte secret of ASCII `'B'` bytes into a
zeroed region: the frame occupies bytes 0-20 (4 magic, 1 length, 16 payload)
and byte 20 holds 66. -/
def demoSavedNvm : Nvm :=
  (saveSecret demoCfg true demoNvm0 (List.replicate 16 66)).1

/-- Render of a six-digit PIN: `_generate_random_pin` (source lines 239-251)
produces six decimal digit characters; both its paths (six independent
`urandom` digit draws, or the `f"{seed:06d}"` time fallback) yield exactly
the zero-padded six-digit decimal rendering of a number below 10^6, so a
single draw `k` is rendered as its last six decimal digits. -/
def sixDigitPin (k : Nat) : String :=
  String.mk ((List.range 6).map (fun i => Char.ofNat (48 + k / 10 ^ (5 - i) % 10)))

/-- Configuration and randomness oracles of `DisplayAuth` (source lines
224-237): `pin_duration = 120`, `max_attempts = 5` by default.  `pinGen n`
is the number produced by the n-th call to `_generate_random_pin`;
`tokenGen n` is the string produced by the n-th call to
`_generate_session_token`. -/
structure AuthConfig where
  pinDuration : Nat
  maxAttempts : Nat
  pinGen : Nat → Nat
  tokenGen : Nat → String

/-- Mutable state of a `DisplayAuth` instance: the current PIN and its
generation timestamp, the session-token set (`set()` modelled as a list
queried by membership), the per-client attempt counters (`dict` modelled
as an association list), and the two oracle draw counters. -/
structure AuthState where
  currentPin : String
  pinGeneratedTime : Nat
  sessionTokens : List String
  pinAttempts : List (String × Nat)
  pinCtr : Nat
  tokCtr : Nat
deriving DecidableEq

/-- Dictionary lookup in the attempts map (`client_ip in self.pin_attempts`
/ `self.pin_attempts[client_ip]`). -/
def lookupA (client : String) : List (String × Nat) → Option Nat
  | [] => none
  | (k, v) :: t => if k = client then some v else lookupA client t

/-- Dictionary assignment `self.pin_attempts[client_ip] = v`: overwrite the
entry if present, append otherwise. -/
def setA : List (String × Nat) → String → Nat → List (String × Nat)
  | [], client, v => [(client, v)]
  | (k, x) :: t, client, v =>
    if k = client then (k, v) :: t else (k, x) :: setA t client v

/-- Dictionary deletion `del self.pin_attempts[client_ip]` (keys are unique
in every reachable map, so removing the first match is exact). -/
def delA : List (String × Nat) → String → List (String × Nat)
  | [], _ => []
  | (k, x) :: t, client => if k = client then t else (k, x) :: delA t client

/-- `DisplayAuth.refresh_pin` (source lines 253-264): draw a fresh PIN and
reset the generation timestamp.  The display update has no effect on the
authentication state. -/
def refreshPin (cfg : AuthConfig) (now : Nat) (s : AuthState) : AuthState :=
  { s with currentPin := sixDigitPin (cfg.pinGen s.pinCtr),
           pinGeneratedTime := now,
           pinCtr := s.pinCtr + 1 }

/-- `DisplayAuth.get_current_pin` (source lines 266-273): refresh exactly
when `now - pin_generated_time > pin_duration`, then return the (possibly
new) current PIN. -/
def getCurrentPin (cfg : AuthConfig) (now : Nat) (s : AuthState) :
    AuthState × String :=
  if cfg.pinDuration < now - s.pinGeneratedTime then
    (refreshPin cfg now s, (refreshPin cfg now s).currentPin)
  else (s, s.currentPin)

/-- `DisplayAuth.get_pin_time_remaining` (source lines 275-279):
`max(0, duration - elapsed)`, truncated subtraction on `Nat`.  Pure — it
never mutates the state. -/
def getPinTimeRemaining (cfg : AuthConfig) (now : Nat) (s : AuthState) : Nat :=
  cfg.pinDuration - (now - s.pinGeneratedTime)

/-- The literal lockout message returned at source line 287. -/
def lockoutMsg : String := "Too many failed attempts. Wait for PIN refresh."

/-- The failed-verification message built at source line 312. -/
def invalidMsg (remAttempts remTime : Nat) : String :=
  "Invalid PIN. " ++ Nat.repr remAttempts ++
    " attempts remaining. PIN changes in " ++ Nat.repr remTime ++ "s"

/-- The rate-limit guard of `verify_pin` (source lines 285-287): the client
has an entry in `pin_attempts` and it has reached `max_attempts`. -/
def lockedOut (cfg : AuthConfig) (s : AuthState) (client : String) : Bool :=
  match lookupA client s.pinAttempts with
  | some n => decide (cfg.maxAttempts ≤ n)
  | none => false

/-- Body of `verify_pin` past the rate-limit guard (source lines 289-312):
fetch the current PIN (possibly rotating it), compare, and on success clear
the client's counter, mint a token and add it to the set, or on failure
bump the counter and report attempts/time remaining. -/
def verifyPinMain (cfg : AuthConfig) (now : Nat) (s : AuthState)
    (enteredPin client : String) : AuthState × Bool × String :=
  if enteredPin = ((getCurrentPin cfg now s).1).currentPin then
    ({ (getCurrentPin cfg now s).1 with
        pinAttempts := delA ((getCurrentPin cfg now s).1).pinAttempts client,
        sessionTokens := List.insert (cfg.tokenGen ((getCurrentPin cfg now s).1).tokCtr)
          ((getCurrentPin cfg now s).1).sessionTokens,
        tokCtr := ((getCurrentPin cfg now s).1).tokCtr + 1 },
      true, cfg.tokenGen ((getCurrentPin cfg now s).1).tokCtr)
  else
    (({ (getCurrentPin cfg now s).1 with
        pinAttempts := setA ((getCurrentPin cfg now s).1).pinAttempts client
          ((lookupA client ((getCurrentPin cfg now s).1).pinAttempts).getD 0 + 1) }),
      false,
      invalidMsg
        (cfg.maxAttempts - ((lookupA client ((getCurrentPin cfg now s).1).pinAttempts).getD 0 + 1))
        (getPinTimeRemaining cfg now
          ({ (getCurrentPin cfg now s).1 with
              pinAttempts := setA ((getCurrentPin cfg now s).1).pinAttempts client
                ((lookupA client ((getCurrentPin cfg now s).1).pinAttempts).getD 0 + 1) })))

/-- `DisplayAuth.verify_pin` (source lines 281-315): the rate-limit guard
returns the fixed lockout message before the PIN is ever consulted. -/
def verifyPin (cfg : AuthConfig) (now : Nat) (s : AuthState)
    (enteredPin client : String) : AuthState × Bool × String :=
  if lockedOut cfg s client = true then (s, false, lockoutMsg)
  else verifyPinMain cfg now s enteredPin client

/-- `DisplayAuth.verify_token` (source lines 317-319): set membership. -/
def verifyToken (s : AuthState) (token : String) : Bool :=
  decide (token ∈ s.sessionTokens)

/-- `DisplayAuth.logout_all` (source lines 346-349): clear the token set. -/
def logoutAll (s : AuthState) : AuthState := { s with sessionTokens := [] }

/-- `DisplayAuth.__init__` (source lines 224-237): empty token set and
attempt map, then an initial `refresh_pin()` at construction time `t0`. -/
def initState (cfg : AuthConfig) (t0 : Nat) : AuthState :=
  refreshPin cfg t0
    { currentPin := "", pinGeneratedTime := 0, sessionTokens := [],
      pinAttempts := [], pinCtr := 0, tokCtr := 0 }

/-- Externally triggered operations on a `DisplayAuth` instance, each
carrying the wall-clock time of the call where relevant. -/
inductive AuthEvent where
  | verify : String → String → Nat → AuthEvent
  | queryPin : Nat → AuthEvent
  | refresh : Nat → AuthEvent
  | logout : AuthEvent
deriving DecidableEq

/-- One step of the state machine, also reporting the `(ok, payload)`
result when the event is a verification. -/
def stepOut (cfg : AuthConfig) (s : AuthState) :
    AuthEvent → AuthState × Option (Bool × String)
  | AuthEvent.verify pin client now =>
    ((verifyPin cfg now s pin client).1,
      some ((verifyPin cfg now s pin client).2.1, (verifyPin cfg now s pin client).2.2))
  | AuthEvent.queryPin now => ((getCurrentPin cfg now s).1, none)
  | AuthEvent.refresh now => (refreshPin cfg now s, none)
  | AuthEvent.logout => (logoutAll s, none)

/-- The state after an event. -/
def step (cfg : AuthConfig) (s : AuthState) (e : AuthEvent) : AuthState :=
  (stepOut cfg s e).1

/-- Run a list of events from a state. -/
def run (cfg : AuthConfig) (s : AuthState) : List AuthEvent → AuthState
  | [] => s
  | e :: es => run cfg (step cfg s e) es

/-- Whether an event is a `logout_all` call. -/
def isLogout : AuthEvent → Bool
  | AuthEvent.logout => true
  | _ => false

/-- Whether a trace contains a `logout_all` call. -/
def hasLogout (es : List AuthEvent) : Bool := es.any isLogout

/-- The specification predicate of C5: starting from `s`, the trace `es`
contains a successful verification returning exactly the token `t`, with no
`logout_all` call after it. -/
def issuedLive (cfg : AuthConfig) : AuthState → String → List AuthEvent → Bool
  | _, _, [] => false
  | s, t, e :: es =>
    ((decide ((stepOut cfg s e).2 = some (true, t))) && !(hasLogout es)) ||
      issuedLive cfg (step cfg s e) t es

/-- The fixed literal searched by `_check_auth` (source line 1240). -/
def sessionLiteral : String := "authenticated_session_token"

/-- The 62-character alphabet of `_generate_session_token`
(source line 326). -/
def tokenAlphabet : List Char :=
  "ABCDEFGHIJKLMNOPQRSTUVWXYZabcdefghijklmnopqrstuvwxyz0123456789".data

/-- The ten decimal digit characters — the alphabet of `Nat.repr`. -/
def decimalDigits : List Char :=
  (List.range 10).map (fun d => Char.ofNat (48 + d))

/-- `DisplayAuth._generate_session_token` (source lines 321-332), both
branches: on the primary path (`urandomOk = true`) 32 characters, each
drawn from `tokenAlphabet` by `urandom.randint(0, 61)`, modelled by the
oracle `rand` reduced mod 62; when the urandom import or draw raises, the
`except` fallback at lines 330-332 returns
`"session_" + str(int(time.monotonic() * 1000))`, the millisecond count
supplied as `millis`. -/
def genSessionToken : Bool → (Nat → Nat) → Nat → String
  | true, rand, _ =>
    String.mk ((List.range 32).map (fun i =>
      tokenAlphabet.get ⟨rand i % 62,
        Nat.lt_of_lt_of_le (Nat.mod_lt (rand i) (by decide)) (by decide)⟩))
  | false, _, millis => "session_" ++ Nat.repr millis

/-- The shapes `request.headers` can take in `_check_auth` (source lines
1231-1237): attribute missing or falsy; a `dict` (looked up with
`headers.get('Authorization', '')`); or any other object, in which case the
source uses `str(request.headers)` — the rendering of the whole header
block, one `Name: value` line per header. -/
inductive ReqHeaders where
  | noHeaders : ReqHeaders
  | dictHeaders : List (String × String) → ReqHeaders
  | objHeaders : List (String × String) → ReqHeaders
deriving DecidableEq

/-- `dict.get(k, '')` on the header pairs. -/
def lookupHeader (k : String) : List (String × String) → String
  | [] => ""
  | (k2, v) :: t => if k2 = k then v else lookupHeader k t

/-- String rendering of a non-dict header object: every header as a
`Name: value` line. -/
def renderHeaders : List (String × String) → String
  | [] => ""
  | (k, v) :: t => k ++ ": " ++ v ++ "\r\n" ++ renderHeaders t

/-- The `auth_header` string `_check_auth` actually searches (source lines
1231-1237). -/
def extractedAuth : ReqHeaders → String
  | ReqHeaders.noHeaders => ""
  | ReqHeaders.dictHeaders ps => lookupHeader "Authorization" ps
  | ReqHeaders.objHeaders ps => renderHeaders ps

/-- The request's actual `Authorization` header value — the notion the
claim C1 speaks about (empty when absent). -/
def authorizationValue : ReqHeaders → String
  | ReqHeaders.noHeaders => ""
  | ReqHeaders.dictHeaders ps => lookupHeader "Authorization" ps
  | ReqHeaders.objHeaders ps => lookupHeader "Authorization" ps

/-- Python's substring test `needle in hay`. -/
def pyIn (needle hay : String) : Bool := decide (needle.data <:+: hay.data)

/-- `EnhancedWebServer._check_auth` (source lines 1224-1244): always allow
when `auth_required` is false, otherwise a raw substring search for the
fixed literal in the extracted auth string. -/
def checkAuth (authRequired : Bool) (r : ReqHeaders) : Bool :=
  if authRequired = false then true
  else pyIn sessionLiteral (extractedAuth r)

/-- Concrete `DisplayAuth` configuration used by the spec's end-to-end
scenario: defaults `duration=120`, `max_attempts=5`; the PIN oracle yields
`482913` then `017744`. -/
def demoAuthCfg : AuthConfig :=
  { pinDuration := 120, maxAttempts := 5,
    pinGen := fun n => if n = 0 then 482913 else 17744,
    tokenGen := fun n => "token" ++ Nat.repr n }

/-- The scenario's `DisplayAuth` instance constructed at `t = 0`. -/
def demoAuthState : AuthState := initState demoAuthCfg 0

/-- The scenario state after client `"A"` fails verification five times. -/
def lockedStateA : AuthState :=
  run demoAuthCfg demoAuthState
    (List.replicate 5 (AuthEvent.verify "000000" "A" 2))

/-- A request whose headers are a non-dict object with no `Authorization`
header, but whose `Cookie` header contains the gate's literal. -/
def sneakyHeaders : ReqHeaders :=
  ReqHeaders.objHeaders [("Cookie", "authenticated_session_token")]

theorem writeBytes_get (m : Nvm) (off : Nat) (d : List Nat) (j : Nat)
    (h : j < d.length) : writeBytes m off d (off + j) = d.getD j 0 := by
  unfold writeBytes
  have h1 : off ≤ off + j := Nat.le_add_right off j
  have h2 : off + j < off + d.length := Nat.add_lt_add_left h off
  simp [h1, h2]

theorem readBytes_length (m : Nvm) (off len : Nat) :
    (readBytes m off len).length = len := by
  simp [readBytes]

theorem readBytes_writeBytes (m : Nvm) (off : Nat) (d : List Nat)
    (k len : Nat) (h : k + len ≤ d.length) :
    readBytes (writeBytes m off d) (off + k) len = (d.drop k).take len := by
  have hL := readBytes_length (writeBytes m off d) (off + k) len
  have hR : ((d.drop k).take len).length = len := by
    simp
    omega
  apply List.ext_getElem (by rw [hL, hR])
  intro i h1 h2
  rw [hL] at h1
  simp only [readBytes, List.getElem_map, List.getElem_range]
  have hk : off + k + i = off + (k + i) := by omega
  rw [hk, writeBytes_get m off d (k + i) (by omega)]
  rw [List.getElem_take, List.getElem_drop]
  rw [List.getD_eq_getElem d 0 (by omega)]

/-- C6 (confirmed): for every secret `s` with `0 < len(s) <= secret_length`
(well-formed for the source's representation: ASCII bytes, and a configured
length that fits the one-byte length field), `save_secret(s)` succeeds and a
subsequent `load_secret()` returns `s` right-padded with `'A'` (byte 65) to
`secret_length`, leaving the NVM untouched — the round trip through the
persisted `magic || length || payload` frame. -/
theorem saveSecret_loadSecret_roundtrip (cfg : NVMConfig) (m : Nvm)
    (s g : List Nat) (io2 : Bool)
    (h1 : 0 < s.length) (h2 : s.length ≤ cfg.secretLength)
    (h3 : cfg.secretLength ≤ 255) (h4 : ∀ b ∈ s, b < 128) :
    (saveSecret cfg true m s).2 = true ∧
    loadSecret cfg io2 (saveSecret cfg true m s).1 g =
      ((saveSecret cfg true m s).1,
        s ++ List.replicate (cfg.secretLength - s.length) 65) := by
  have hnorm : normalizeSecret cfg.secretLength s =
      s ++ List.replicate (cfg.secretLength - s.length) 65 := by
    unfold normalizeSecret
    rw [if_neg (by omega)]
  set sp := s ++ List.replicate (cfg.secretLength - s.length) 65 with hsp
  have hlen : sp.length = cfg.secretLength := by
    rw [hsp]
    simp
    omega
  have hall : ∀ b ∈ sp, b < 128 := by
    intro b hb
    rcases List.mem_append.mp hb with hb1 | hb2
    · exact h4 b hb1
    · have := List.eq_of_mem_replicate hb2
      omega
  have hsave : saveSecret cfg true m s =
      (writeBytes m cfg.nvmOffset (magicBytes ++ sp.length :: sp), true) := by
    unfold saveSecret
    rw [hnorm, if_pos ⟨by omega, hall, rfl⟩]
  rw [hsave]
  refine ⟨rfl, ?_⟩
  set d := magicBytes ++ sp.length :: sp with hd
  have hdlen : d.length = 5 + cfg.secretLength := by
    rw [hd]
    simp [magicBytes]
    omega
  set w := writeBytes m cfg.nvmOffset d with hw
  have hmagic : readBytes w cfg.nvmOffset 4 = magicBytes := by
    have h0 : readBytes w (cfg.nvmOffset + 0) 4 = (d.drop 0).take 4 :=
      readBytes_writeBytes m cfg.nvmOffset d 0 4 (by omega)
    rw [Nat.add_zero] at h0
    rw [h0, List.drop_zero, hd]
    rw [show (4 : Nat) = magicBytes.length from rfl, List.take_left]
  have hlenbyte : w (cfg.nvmOffset + 4) = cfg.secretLength := by
    rw [hw, writeBytes_get m cfg.nvmOffset d 4 (by omega), hd]
    rw [← hlen]
    simp [magicBytes, List.getD_cons_succ, List.getD_cons_zero]
  have hpayload : readBytes w (cfg.nvmOffset + 5) cfg.secretLength = sp := by
    have h0 : readBytes w (cfg.nvmOffset + 5) cfg.secretLength =
        (d.drop 5).take cfg.secretLength :=
      readBytes_writeBytes m cfg.nvmOffset d 5 cfg.secretLength (by omega)
    rw [h0, hd]
    simp [magicBytes]
    rw [← hlen]
  show loadSecret cfg io2 w g = (w, sp)
  unfold loadSecret
  rw [if_neg (fun hc => hc hmagic)]
  rw [if_neg (by rw [hlenbyte]; omega)]
  rw [hlenbyte, hpayload, if_pos hall]

/-- C6 witness: a concrete round trip with the default configuration and the
five-byte secret `"HELLO"`. -/
theorem saveSecret_loadSecret_roundtrip_witness :
    (saveSecret demoCfg true demoNvm0 helloBytes).2 = true ∧
    loadSecret demoCfg true (saveSecret demoCfg true demoNvm0 helloBytes).1
        [9] =
      ((saveSecret demoCfg true demoNvm0 helloBytes).1,
        helloBytes ++
          List.replicate (demoCfg.secretLength - helloBytes.length) 65) :=
  saveSecret_loadSecret_roundtrip demoCfg demoNvm0 helloBytes [9] true
    (by decide) (by decide) (by decide) (by decide)

/-- C7 (code_bug): the spec says `clear()` overwrites the entire
`5+secret_length` byte frame (21 bytes for the default `secret_length=16`),
but the source sizes the cleared region as `secret_length + 4` (line 101,
whose comment "+4 for magic bytes and length" ignores that the magic alone
is 4 bytes).  Evaluating the code at the failing input: after saving a
16-byte secret of `'B'` bytes (so byte 20, the last payload byte, is 66),
`clear_secret()` returns true, zeroes exactly bytes 0-19, and leaves
byte 20 at 66 instead of 0. -/
theorem clearSecret_misses_last_byte :
    (clearSecret demoCfg true demoSavedNvm).2 = true ∧
    nvmSize demoCfg = 20 ∧
    (List.range 21).map (clearSecret demoCfg true demoSavedNvm).1 =
      List.replicate 20 0 ++ [66] := by decide

/-- C8 (confirmed): `load_secret` never raises — whenever the stored magic
bytes do not match, or the declared length is zero or exceeds the configured
maximum, it generates a new secret `g` and immediately persists it via
`save_secret`; if that persistence fails it returns the in-memory fallback
secret `"JBSWY3DPEHPK3PXP"` instead of propagating an error. -/
theorem loadSecret_regenerates_on_invalid (cfg : NVMConfig) (m : Nvm)
    (ioOk : Bool) (g : List Nat)
    (h : readBytes m cfg.nvmOffset 4 ≠ magicBytes ∨
      m (cfg.nvmOffset + 4) = 0 ∨ cfg.secretLength < m (cfg.nvmOffset + 4)) :
    loadSecret cfg ioOk m g =
      ((saveSecret cfg ioOk m g).1,
        if (saveSecret cfg ioOk m g).2 = true then g else fallbackSecret) := by
  have hGAS : generateAndSave cfg ioOk m g =
      ((saveSecret cfg ioOk m g).1,
        if (saveSecret cfg ioOk m g).2 = true then g else fallbackSecret) := by
    by_cases hsv : (saveSecret cfg ioOk m g).2 = true <;>
      simp [generateAndSave, hsv]
  unfold loadSecret
  by_cases h1 : readBytes m cfg.nvmOffset 4 ≠ magicBytes
  · rw [if_pos h1, hGAS]
  · rw [if_neg h1, if_pos (h.resolve_left h1), hGAS]

/-- C8 witness: an all-zero NVM (magic mismatch) with a failing NVM write
falls back to the hardcoded secret. -/
theorem loadSecret_regenerates_on_invalid_witness :
    loadSecret demoCfg false demoNvm0 [66, 67] =
      ((saveSecret demoCfg false demoNvm0 [66, 67]).1,
        if (saveSecret demoCfg false demoNvm0 [66, 67]).2 = true then [66, 67]
        else fallbackSecret) :=
  loadSecret_regenerates_on_invalid demoCfg demoNvm0 false [66, 67]
    (Or.inl (by decide))

theorem sixDigitPin_length (k : Nat) : (sixDigitPin k).length = 6 := by
  unfold sixDigitPin String.length
  simp

theorem lockedOut_of (cfg : AuthConfig) (s : AuthState) (client : String)
    (n : Nat) (hA : lookupA client s.pinAttempts = some n)
    (hn : cfg.maxAttempts ≤ n) : lockedOut cfg s client = true := by
  unfold lockedOut
  rw [hA]
  simpa

theorem verifyPin_locked_eq (cfg : AuthConfig) (now : Nat) (s : AuthState)
    (pin client : String) (h : lockedOut cfg s client = true) :
    verifyPin cfg now s pin client = (s, false, lockoutMsg) := by
  unfold verifyPin
  rw [h]
  simp

/-- C2 (corrected): once a client's recorded failure count has reached
`max_attempts`, every subsequent `verify_pin` call for that client returns
failure with the fixed lockout reason string — and the result is completely
independent of the submitted PIN (the PIN is never consulted).  Contrary to
the claim, the lockout reason does not carry the current
`time_remaining()` (see the counterexample). -/
theorem verifyPin_lockout_fixed_message (cfg : AuthConfig) (now : Nat)
    (s : AuthState) (pin pin2 client : String) (n : Nat)
    (hA : lookupA client s.pinAttempts = some n)
    (hn : cfg.maxAttempts ≤ n) :
    verifyPin cfg now s pin client = (s, false, lockoutMsg) ∧
    verifyPin cfg now s pin client = verifyPin cfg now s pin2 client := by
  have h := lockedOut_of cfg s client n hA hn
  rw [verifyPin_locked_eq cfg now s pin client h,
    verifyPin_locked_eq cfg now s pin2 client h]
  exact ⟨rfl, rfl⟩

/-- The demo state with client `"A"` already at the attempt limit. -/
def lockedDemoState : AuthState :=
  { demoAuthState with pinAttempts := [("A", 5)] }

/-- C2 witness: at the concrete locked state, the call fails with the fixed
lockout message whatever PIN is submitted. -/
theorem verifyPin_lockout_fixed_message_witness :
    verifyPin demoAuthCfg 23 lockedDemoState "000000" "A" =
      (lockedDemoState, false, lockoutMsg) ∧
    verifyPin demoAuthCfg 23 lockedDemoState "000000" "A" =
      verifyPin demoAuthCfg 23 lockedDemoState "482913" "A" :=
  verifyPin_lockout_fixed_message demoAuthCfg 23 lockedDemoState "000000"
    "482913" "A" 5 (by decide) (by decide)

/-- C2 counterexample: the claim says the lockout failure carries the
current `time_remaining()`.  At the locked state with 97 seconds remaining
the returned reason contains no occurrence of `"97"`, and the call returns
the very same result at a time with 30 seconds remaining — the output
cannot carry the current `time_remaining()`. -/
theorem verifyPin_lockout_no_time_counterexample :
    getPinTimeRemaining demoAuthCfg 23 lockedDemoState = 97 ∧
    getPinTimeRemaining demoAuthCfg 90 lockedDemoState = 30 ∧
    (verifyPin demoAuthCfg 23 lockedDemoState "000000" "A").2.1 = false ∧
    ¬((Nat.repr 97).data <:+:
      (verifyPin demoAuthCfg 23 lockedDemoState "000000" "A").2.2.data) ∧
    verifyPin demoAuthCfg 23 lockedDemoState "000000" "A" =
      verifyPin demoAuthCfg 90 lockedDemoState "000000" "A" := by decide

/-- C4 (corrected): `get_current_pin` returns the unchanged PIN exactly for
calls with `now <= t0 + duration` (the claim's half-open window `[t0,
t0+120)` is wrong at the right endpoint: the source refreshes only when
`now - t0 > duration`).  On the first call past that closed window it
returns the freshly drawn six-digit PIN and restamps the generation time to
`now`; `logout_all` (and the pure `get_pin_time_remaining`) never advance
the challenge — rotation is demand-driven. -/
theorem getCurrentPin_window_characterization (cfg : AuthConfig)
    (s : AuthState) (now : Nat) :
    (getCurrentPin cfg now s = (s, s.currentPin) ↔
      now ≤ cfg.pinDuration + s.pinGeneratedTime) ∧
    getCurrentPin cfg now s =
      (if cfg.pinDuration + s.pinGeneratedTime < now then
        (refreshPin cfg now s, sixDigitPin (cfg.pinGen s.pinCtr))
      else (s, s.currentPin)) ∧
    (refreshPin cfg now s).pinGeneratedTime = now ∧
    (refreshPin cfg now s).currentPin = sixDigitPin (cfg.pinGen s.pinCtr) ∧
    (sixDigitPin (cfg.pinGen s.pinCtr)).length = 6 ∧
    (logoutAll s).currentPin = s.currentPin ∧
    (logoutAll s).pinGeneratedTime = s.pinGeneratedTime := by
  refine ⟨?_, ?_, rfl, rfl, sixDigitPin_length _, rfl, rfl⟩
  · unfold getCurrentPin
    by_cases h : cfg.pinDuration < now - s.pinGeneratedTime
    · rw [if_pos h]
      constructor
      · intro heq
        have h2 := congrArg (fun p => p.1.pinCtr) heq
        simp [refreshPin] at h2
      · intro hle
        exfalso
        omega
    · rw [if_neg h]
      simp
      omega
  · unfold getCurrentPin
    by_cases h : cfg.pinDuration < now - s.pinGeneratedTime
    · rw [if_pos h, if_pos (by omega)]
      rfl
    · rw [if_neg h, if_neg (by omega)]

/-- C4 counterexample: for the challenge generated at `t0 = 0` with
`duration = 120`, the call at `now = 120` — which the claim places in the
"fresh, different PIN" regime (`now >= t0+120`) — returns the identical old
PIN `"482913"` and does not rotate, although a fresh draw would have
produced the different PIN `"017744"`. -/
theorem getCurrentPin_boundary_counterexample :
    demoAuthState.pinGeneratedTime = 0 ∧
    demoAuthCfg.pinDuration = 120 ∧
    demoAuthState.currentPin = "482913" ∧
    getCurrentPin demoAuthCfg 120 demoAuthState = (demoAuthState, "482913") ∧
    sixDigitPin (demoAuthCfg.pinGen demoAuthState.pinCtr) = "017744" ∧
    ("482913" : String) ≠ "017744" := by decide

/-- C3 (code_bug): the spec's end-to-end scenario.  After five failed
verifications by client `"A"` (attempts = 5) and a locked-out sixth call
with the then-correct PIN `"482913"`, the challenge rotates at `t = 121` to
the fresh PIN `"017744"` — but the verification of that correct new PIN by
`"A"` still fails with the lockout message and no token is ever issued,
because `pin_attempts` is never cleared on rotation.  The claim (and the
lockout message's own "Wait for PIN refresh.") says this call succeeds with
a 32-character token. -/
theorem lockout_survives_rotation :
    lockedStateA.currentPin = "482913" ∧
    lookupA "A" lockedStateA.pinAttempts = some 5 ∧
    verifyPin demoAuthCfg 6 lockedStateA "482913" "A" =
      (lockedStateA, false, lockoutMsg) ∧
    ((getCurrentPin demoAuthCfg 121 lockedStateA).1).currentPin = "017744" ∧
    verifyPin demoAuthCfg 121 (getCurrentPin demoAuthCfg 121 lockedStateA).1
        "017744" "A" =
      ((getCurrentPin demoAuthCfg 121 lockedStateA).1, false, lockoutMsg) ∧
    ((getCurrentPin demoAuthCfg 121 lockedStateA).1).sessionTokens = [] := by
  decide

/-- C1 (corrected): what the access gate really tests.  When
`auth_required` is false every request is allowed.  When it is true, the
gate searches the literal in the extracted auth string: for dict-shaped
headers that is the `Authorization` value (so there the claim's
biconditional holds), but for any non-dict header object it is the
rendering of the whole header block, and with absent headers it is empty
(always rejected). -/
theorem checkAuth_extracted_characterization :
    (∀ r, checkAuth false r = true) ∧
    (∀ ps, checkAuth true (ReqHeaders.dictHeaders ps) =
      pyIn sessionLiteral (lookupHeader "Authorization" ps)) ∧
    (∀ ps, checkAuth true (ReqHeaders.objHeaders ps) =
      pyIn sessionLiteral (renderHeaders ps)) ∧
    checkAuth true ReqHeaders.noHeaders = false :=
  ⟨fun _ => rfl, fun _ => rfl, fun _ => rfl, by decide⟩

/-- C1 counterexample: a request whose (non-dict) headers carry the literal
only inside a `Cookie` header and have no `Authorization` header at all is
accepted by `_check_auth` with `auth_required = true`, although the literal
does not occur in the request's `Authorization` header value (which is
empty) — refuting the claimed biconditional. -/
theorem checkAuth_claim_counterexample :
    checkAuth true sneakyHeaders = true ∧
    pyIn sessionLiteral (authorizationValue sneakyHeaders) = false ∧
    authorizationValue sneakyHeaders = "" := by decide

theorem digitChar_mem_decimal (m : Nat) (h : m < 10) :
    Nat.digitChar m ∈ decimalDigits := by
  interval_cases m <;> decide

theorem toDigitsCore_mem_decimal (fuel : Nat) :
    ∀ (n : Nat) (ds : List Char), (∀ c ∈ ds, c ∈ decimalDigits) →
      ∀ c ∈ Nat.toDigitsCore 10 fuel n ds, c ∈ decimalDigits := by
  induction fuel with
  | zero =>
    intro n ds hds c hc
    exact hds c hc
  | succ fuel ih =>
    intro n ds hds c hc
    simp only [Nat.toDigitsCore] at hc
    by_cases h0 : n / 10 = 0
    · rw [if_pos h0] at hc
      rcases List.mem_cons.mp hc with h1 | h1
      · rw [h1]
        exact digitChar_mem_decimal (n % 10) (Nat.mod_lt n (by decide))
      · exact hds c h1
    · rw [if_neg h0] at hc
      refine ih (n / 10) (Nat.digitChar (n % 10) :: ds) ?_ c hc
      intro c2 hc2
      rcases List.mem_cons.mp hc2 with h1 | h1
      · rw [h1]
        exact digitChar_mem_decimal (n % 10) (Nat.mod_lt n (by decide))
      · exact hds c2 h1

theorem repr_data_mem_decimal (n : Nat) :
    ∀ c ∈ (Nat.repr n).data, c ∈ decimalDigits := by
  intro c hc
  exact toDigitsCore_mem_decimal (n + 1) n [] (by simp) c hc

/-- C9 (confirmed): no token `_generate_session_token` can produce — a
32-character letters-and-digits string on the primary path, or the
`"session_" + millis` string on the urandom-failure fallback — contains
the gate's literal as a substring: the primary alphabet lacks `'_'`, and
the fallback's characters (those of `"session_"` and decimal digits) lack
the letter `'a'`, both of which the literal contains.  Hence with
`auth_required` true, a request whose `Authorization` header value is
exactly an issued token is always rejected by `_check_auth`. -/
theorem issued_token_always_rejected (urandomOk : Bool) (rand : Nat → Nat)
    (millis : Nat) :
    ('_' ∈ sessionLiteral.data ∧ '_' ∉ tokenAlphabet ∧
      'a' ∈ sessionLiteral.data) ∧
    ¬(sessionLiteral.data <:+: (genSessionToken urandomOk rand millis).data) ∧
    checkAuth true (ReqHeaders.dictHeaders
      [("Authorization", genSessionToken urandomOk rand millis)]) = false ∧
    (genSessionToken true rand millis).length = 32 ∧
    (∀ c ∈ (genSessionToken true rand millis).data, c ∈ tokenAlphabet) := by
  have hsub : ∀ c ∈ (genSessionToken true rand millis).data,
      c ∈ tokenAlphabet := by
    intro c hc
    rcases List.mem_map.mp hc with ⟨i, hi, hei⟩
    rw [← hei]
    exact List.get_mem tokenAlphabet _ _
  have hnot : ¬(sessionLiteral.data <:+:
      (genSessionToken urandomOk rand millis).data) := by
    cases urandomOk with
    | true =>
      intro hinf
      have hu : ('_' : Char) ∈ (genSessionToken true rand millis).data :=
        hinf.subset (by decide)
      have hmem := hsub '_' hu
      revert hmem
      decide
    | false =>
      intro hinf
      have ha : ('a' : Char) ∈ (genSessionToken false rand millis).data :=
        hinf.subset (by decide)
      have hdata : (genSessionToken false rand millis).data =
          "session_".data ++ (Nat.repr millis).data := rfl
      rw [hdata] at ha
      rcases List.mem_append.mp ha with h | h
      · revert h
        decide
      · have hd := repr_data_mem_decimal millis 'a' h
        revert hd
        decide
  refine ⟨⟨by decide, by decide, by decide⟩, hnot, ?_, ?_, hsub⟩
  · have hlk : extractedAuth (ReqHeaders.dictHeaders
        [("Authorization", genSessionToken urandomOk rand millis)]) =
        genSessionToken urandomOk rand millis := by
      simp [extractedAuth, lookupHeader]
    unfold checkAuth
    rw [hlk]
    simp [pyIn]
    exact hnot
  · unfold genSessionToken String.length
    simp

theorem getCurrentPin_attempts (cfg : AuthConfig) (now : Nat) (s : AuthState) :
    ((getCurrentPin cfg now s).1).pinAttempts = s.pinAttempts := by
  unfold getCurrentPin
  split <;> rfl

theorem getCurrentPin_tokens (cfg : AuthConfig) (now : Nat) (s : AuthState) :
    ((getCurrentPin cfg now s).1).sessionTokens = s.sessionTokens := by
  unfold getCurrentPin
  split <;> rfl

theorem lookupA_setA (mp : List (String × Nat)) (client c : String) (v : Nat)
    (h : client ≠ c) : lookupA client (setA mp c v) = lookupA client mp := by
  induction mp with
  | nil => simp [setA, lookupA, Ne.symm h]
  | cons kv t ih =>
    rcases kv with ⟨k, x⟩
    by_cases hk : k = c
    · subst hk
      simp [setA, lookupA, Ne.symm h]
    · simp [setA, lookupA, hk]
      by_cases hkc : k = client <;> simp [hkc, ih]

theorem lookupA_delA (mp : List (String × Nat)) (client c : String)
    (h : client ≠ c) : lookupA client (delA mp c) = lookupA client mp := by
  induction mp with
  | nil => simp [delA]
  | cons kv t ih =>
    rcases kv with ⟨k, x⟩
    by_cases hk : k = c
    · subst hk
      simp [delA, lookupA, Ne.symm h]
    · simp [delA, lookupA, hk]
      by_cases hkc : k = client <;> simp [hkc, ih]

theorem verifyPin_attempts_other (cfg : AuthConfig) (now : Nat)
    (s : AuthState) (pin c client : String) (hne : c ≠ client) :
    lookupA client ((verifyPin cfg now s pin c).1).pinAttempts =
      lookupA client s.pinAttempts := by
  unfold verifyPin
  by_cases h : lockedOut cfg s c = true
  · rw [if_pos h]
  · rw [if_neg h]
    unfold verifyPinMain
    by_cases h2 : pin = ((getCurrentPin cfg now s).1).currentPin
    · rw [if_pos h2]
      show lookupA client
        (delA ((getCurrentPin cfg now s).1).pinAttempts c) = _
      rw [lookupA_delA _ client c (Ne.symm hne), getCurrentPin_attempts]
    · rw [if_neg h2]
      show lookupA client
        (setA ((getCurrentPin cfg now s).1).pinAttempts c _) = _
      rw [lookupA_setA _ client c _ (Ne.symm hne), getCurrentPin_attempts]

theorem locked_attempts_step (cfg : AuthConfig) (s : AuthState)
    (client : String) (n : Nat) (e : AuthEvent)
    (hA : lookupA client s.pinAttempts = some n)
    (hn : cfg.maxAttempts ≤ n) :
    lookupA client (step cfg s e).pinAttempts = some n := by
  cases e with
  | verify pin c now =>
    by_cases hc : c = client
    · subst hc
      show lookupA c ((verifyPin cfg now s pin c).1).pinAttempts = some n
      rw [verifyPin_locked_eq cfg now s pin c (lockedOut_of cfg s c n hA hn)]
      exact hA
    · show lookupA client ((verifyPin cfg now s pin c).1).pinAttempts = some n
      rw [verifyPin_attempts_other cfg now s pin c client hc]
      exact hA
  | queryPin now =>
    show lookupA client ((getCurrentPin cfg now s).1).pinAttempts = some n
    rw [getCurrentPin_attempts]
    exact hA
  | refresh now => exact hA
  | logout => exact hA

theorem locked_attempts_run (cfg : AuthConfig) (s : AuthState)
    (client : String) (n : Nat) (es : List AuthEvent)
    (hA : lookupA client s.pinAttempts = some n)
    (hn : cfg.maxAttempts ≤ n) :
    lookupA client (run cfg s es).pinAttempts = some n := by
  induction es generalizing s with
  | nil => exact hA
  | cons e t ih =>
    exact ih (step cfg s e) (locked_attempts_step cfg s client n e hA hn)

/-- C10 (confirmed): neither `refresh_pin` nor `get_current_pin` touches
the `pin_attempts` map, and a client whose recorded failure count has
reached `max_attempts` keeps exactly that count across every subsequent
operation — verifications by any client, demand-driven PIN rotations,
explicit refreshes and `logout_all` — for the process lifetime, because the
lockout branch returns before the counter could ever be reset by a
successful verification. -/
theorem attempts_frame_and_lockout_persistence :
    (∀ (cfg : AuthConfig) (now : Nat) (s : AuthState),
      (refreshPin cfg now s).pinAttempts = s.pinAttempts) ∧
    (∀ (cfg : AuthConfig) (now : Nat) (s : AuthState),
      ((getCurrentPin cfg now s).1).pinAttempts = s.pinAttempts) ∧
    (∀ (cfg : AuthConfig) (s : AuthState) (client : String) (n : Nat)
      (es : List AuthEvent),
      lookupA client s.pinAttempts = some n → cfg.maxAttempts ≤ n →
      lookupA client (run cfg s es).pinAttempts = some n) :=
  ⟨fun _ _ _ => rfl,
   fun cfg now s => getCurrentPin_attempts cfg now s,
   fun cfg s client n es hA hn => locked_attempts_run cfg s client n es hA hn⟩

/-- C10 witness: the locked demo client keeps its count of 5 through a
rotation-triggering query, a further verification with the new correct PIN,
and a logout. -/
theorem attempts_frame_and_lockout_persistence_witness :
    lookupA "A" (run demoAuthCfg lockedDemoState
      [AuthEvent.queryPin 121, AuthEvent.verify "017744" "A" 121,
        AuthEvent.logout]).pinAttempts = some 5 :=
  attempts_frame_and_lockout_persistence.2.2 demoAuthCfg lockedDemoState "A" 5
    [AuthEvent.queryPin 121, AuthEvent.verify "017744" "A" 121,
      AuthEvent.logout]
    (by decide) (by decide)

theorem verifyPin_tokens (cfg : AuthConfig) (now : Nat) (s : AuthState)
    (pin c : String) :
    ((verifyPin cfg now s pin c).2.1 = true ∧
      ((verifyPin cfg now s pin c).1).sessionTokens =
        List.insert ((verifyPin cfg now s pin c).2.2) s.sessionTokens) ∨
    ((verifyPin cfg now s pin c).2.1 = false ∧
      ((verifyPin cfg now s pin c).1).sessionTokens = s.sessionTokens) := by
  unfold verifyPin
  by_cases h : lockedOut cfg s c = true
  · right
    rw [if_pos h]
    exact ⟨rfl, rfl⟩
  · rw [if_neg h]
    unfold verifyPinMain
    by_cases h2 : pin = ((getCurrentPin cfg now s).1).currentPin
    · left
      rw [if_pos h2]
      refine ⟨rfl, ?_⟩
      show List.insert (cfg.tokenGen ((getCurrentPin cfg now s).1).tokCtr)
          ((getCurrentPin cfg now s).1).sessionTokens =
        List.insert (cfg.tokenGen ((getCurrentPin cfg now s).1).tokCtr)
          s.sessionTokens
      rw [getCurrentPin_tokens]
    · right
      rw [if_neg h2]
      exact ⟨rfl, getCurrentPin_tokens cfg now s⟩

theorem run_tokens (cfg : AuthConfig) (es : List AuthEvent) :
    ∀ (s : AuthState) (t : String),
      t ∈ (run cfg s es).sessionTokens ↔
        (issuedLive cfg s t es = true ∨
          (t ∈ s.sessionTokens ∧ hasLogout es = false)) := by
  induction es with
  | nil =>
    intro s t
    simp [run, issuedLive, hasLogout]
  | cons e es ih =>
    intro s t
    have hrun : run cfg s (e :: es) = run cfg (step cfg s e) es := rfl
    have hIL : issuedLive cfg s t (e :: es) =
        (((decide ((stepOut cfg s e).2 = some (true, t))) && !(hasLogout es)) ||
          issuedLive cfg (step cfg s e) t es) := rfl
    have hHL : hasLogout (e :: es) = (isLogout e || hasLogout es) := by
      simp [hasLogout]
    rw [hrun, hIL, hHL, ih (step cfg s e) t]
    cases e with
    | verify pin c now =>
      have hstep : step cfg s (AuthEvent.verify pin c now) =
          (verifyPin cfg now s pin c).1 := rfl
      have hout : (stepOut cfg s (AuthEvent.verify pin c now)).2 =
          some ((verifyPin cfg now s pin c).2.1,
            (verifyPin cfg now s pin c).2.2) := rfl
      have hlog : isLogout (AuthEvent.verify pin c now) = false := rfl
      rw [hstep, hout, hlog]
      rcases verifyPin_tokens cfg now s pin c with ⟨hb, ht⟩ | ⟨hb, ht⟩
      · rw [hb, ht]
        by_cases htt : (verifyPin cfg now s pin c).2.2 = t
        · subst htt
          simp [List.mem_insert_iff]
          cases hL : hasLogout es <;> simp
        · simp [List.mem_insert_iff, htt, Ne.symm htt]
      · rw [hb, ht]
        simp
    | queryPin now =>
      have hstep : step cfg s (AuthEvent.queryPin now) =
          (getCurrentPin cfg now s).1 := rfl
      rw [hstep]
      simp only [stepOut, isLogout, getCurrentPin_tokens, Bool.false_or]
      simp
    | refresh now =>
      have hstep : step cfg s (AuthEvent.refresh now) = refreshPin cfg now s := rfl
      rw [hstep]
      have htok : (refreshPin cfg now s).sessionTokens = s.sessionTokens := rfl
      simp only [stepOut, isLogout, htok, Bool.false_or]
      simp
    | logout =>
      have hstep : step cfg s AuthEvent.logout = logoutAll s := rfl
      rw [hstep]
      have htok : (logoutAll s).sessionTokens = [] := rfl
      simp only [stepOut, isLogout, htok, Bool.true_or]
      simp

/-- C5 (confirmed): starting from a freshly constructed `DisplayAuth`,
after any sequence of operations `verify_token(t)` succeeds exactly when
the trace contains a successful `verify_pin` call that returned `t` with no
`logout_all` call after it — membership in the in-memory session-token set
is necessary and sufficient. -/
theorem verifyToken_trace_characterization (cfg : AuthConfig) (t0 : Nat)
    (es : List AuthEvent) (t : String) :
    verifyToken (run cfg (initState cfg t0) es) t =
      issuedLive cfg (initState cfg t0) t es := by
  have h := run_tokens cfg es (initState cfg t0) t
  have h0 : (initState cfg t0).sessionTokens = [] := rfl
  rw [h0] at h
  simp at h
  unfold verifyToken
  cases hb : issuedLive cfg (initState cfg t0) t es with
  | false =>
    rw [hb] at h
    simp at h
    simp [h]
  | true =>
    rw [hb] at h
    simp at h
    simp [h]
